import Mathlib

/-!
Shallow embedding of the joint-manipulation subsystem of the
`double-diamond` articulated-creature application, together with proofs
about its pose serialization, two-bone IK solver, snapping features,
camera view snap, orbit/drag interlock, sketch-inference application and
startup cache loading.

The geometry is modelled over the real numbers; three.js guards
(`divideScalar(length || 1)`, the zero-length check in
`Quaternion.normalize`, the antiparallel branch of
`Quaternion.setFromUnitVectors`) are reproduced explicitly.
-/

namespace DoubleDiamond

open Real

/-! ## Vectors (three.js `Vector3` operations used by the app) -/

/-- A 3-component vector of real numbers, standing for `THREE.Vector3`. -/
@[ext]
structure V3 where
  x : ℝ
  y : ℝ
  z : ℝ

/-- Model of `a.clone().sub(b)` / `new Vector3().subVectors(a, b)`. -/
def vsub (a b : V3) : V3 := ⟨a.x - b.x, a.y - b.y, a.z - b.z⟩

/-- Model of `a.clone().add(b)`. -/
def vadd (a b : V3) : V3 := ⟨a.x + b.x, a.y + b.y, a.z + b.z⟩

/-- Model of `v.clone().multiplyScalar(c)`. -/
def smul (c : ℝ) (v : V3) : V3 := ⟨c * v.x, c * v.y, c * v.z⟩

/-- Model of `a.dot(b)`. -/
def dot3 (a b : V3) : ℝ := a.x * b.x + a.y * b.y + a.z * b.z

/-- Model of `v.lengthSq()`. -/
def lenSq (v : V3) : ℝ := dot3 v v

/-- Model of `v.length()`. -/
noncomputable def len3 (v : V3) : ℝ := Real.sqrt (lenSq v)

/-- Model of `a.distanceTo(b)`. -/
noncomputable def dist3 (a b : V3) : ℝ := len3 (vsub a b)

/-- Model of `v.normalize()`: three.js divides by `length || 1`, so the zero vector
is left unchanged and no division by zero occurs. -/
noncomputable def normalize3 (v : V3) : V3 :=
  if len3 v = 0 then v else smul (1 / len3 v) v

/-! ## Quaternions (three.js `Quaternion` operations used by the app) -/

/-- A quaternion with components in three.js `(x, y, z, w)` order. -/
@[ext]
structure Quat where
  x : ℝ
  y : ℝ
  z : ℝ
  w : ℝ

/-- three.js `Quaternion.multiplyQuaternions(a, b)` (Hamilton product). -/
def qMul (a b : Quat) : Quat :=
  ⟨a.x * b.w + a.w * b.x + a.y * b.z - a.z * b.y,
   a.y * b.w + a.w * b.y + a.z * b.x - a.x * b.z,
   a.z * b.w + a.w * b.z + a.x * b.y - a.y * b.x,
   a.w * b.w - a.x * b.x - a.y * b.y - a.z * b.z⟩

/-- Squared norm of a quaternion. -/
def qNormSq (q : Quat) : ℝ := q.x ^ 2 + q.y ^ 2 + q.z ^ 2 + q.w ^ 2

/-- Model of `q.length()`. -/
noncomputable def qLength (q : Quat) : ℝ := Real.sqrt (qNormSq q)

/-- Componentwise scaling of a quaternion. -/
def qScale (c : ℝ) (q : Quat) : Quat := ⟨c * q.x, c * q.y, c * q.z, c * q.w⟩

/-- three.js `Quaternion.normalize()`: a zero-length quaternion becomes the
identity, otherwise each component is divided by the length. -/
noncomputable def qNormalize (q : Quat) : Quat :=
  if qLength q = 0 then ⟨0, 0, 0, 1⟩ else qScale (1 / qLength q) q

/-- JavaScript `Number.EPSILON`. -/
noncomputable def jsEPSILON : ℝ := 2 ^ (-(52 : ℤ))

/-- three.js `Quaternion.setFromUnitVectors(vFrom, vTo)`, including the
antiparallel fallback branch and the final normalization. -/
noncomputable def setFromUnitVectorsQ (vFrom vTo : V3) : Quat :=
  if dot3 vFrom vTo + 1 < jsEPSILON then
    qNormalize (if |vFrom.x| > |vFrom.z|
      then ⟨-vFrom.y, vFrom.x, 0, 0⟩
      else ⟨0, -vFrom.z, vFrom.y, 0⟩)
  else
    qNormalize ⟨vFrom.y * vTo.z - vFrom.z * vTo.y,
                vFrom.z * vTo.x - vFrom.x * vTo.z,
                vFrom.x * vTo.y - vFrom.y * vTo.x,
                dot3 vFrom vTo + 1⟩

/-- three.js `Quaternion.setFromAxisAngle((0,0,1), angle)`. -/
noncomputable def setFromAxisAngleZ (angle : ℝ) : Quat :=
  ⟨0, 0, Real.sin (angle / 2), Real.cos (angle / 2)⟩

/-! ## Two-bone IK solver (`handlePointerMove`, `ik_drag` branch of the
snap-enabled variant) -/

/-- Model of `LIMB_SEGMENT_1_LENGTH = 1.5`. -/
noncomputable def l1 : ℝ := 3 / 2

/-- Model of `LIMB_SEGMENT_2_LENGTH = 2.0`. -/
noncomputable def l2 : ℝ := 2

/-- Model of `direction.length()` for `direction = finalTarget - rootPos`. -/
noncomputable def ikRawDist (root target : V3) : ℝ := len3 (vsub target root)

/-- Model of `if (dist > l1 + l2 - 0.01) dist = l1 + l2 - 0.01`. -/
noncomputable def ikDist (root target : V3) : ℝ :=
  if ikRawDist root target > l1 + l2 - 1 / 100
  then l1 + l2 - 1 / 100
  else ikRawDist root target

/-- Model of `Math.max(-1, Math.min(1, v))`. -/
noncomputable def clampUnit (v : ℝ) : ℝ := max (-1) (min 1 v)

/-- Model of `cosKnee = (l1*l1 + l2*l2 - dist*dist) / (2*l1*l2)`. -/
noncomputable def cosKnee (d : ℝ) : ℝ := (l1 ^ 2 + l2 ^ 2 - d ^ 2) / (2 * l1 * l2)

/-- Model of `kneeBend = Math.PI - Math.acos(Math.max(-1, Math.min(1, cosKnee)))`,
with `dist` already clamped. -/
noncomputable def kneeBend (root target : V3) : ℝ :=
  π - Real.arccos (clampUnit (cosKnee (ikDist root target)))

/-- Model of `cosAlpha = (l1*l1 + dist*dist - l2*l2) / (2*l1*dist)`. -/
noncomputable def cosAlpha (d : ℝ) : ℝ := (l1 ^ 2 + d ^ 2 - l2 ^ 2) / (2 * l1 * d)

/-- Model of `alpha = Math.acos(Math.max(-1, Math.min(1, cosAlpha)))`. -/
noncomputable def alphaAngle (root target : V3) : ℝ :=
  Real.arccos (clampUnit (cosAlpha (ikDist root target)))

/-- Model of `q1.multiply(qBend)` where
`q1 = setFromUnitVectors((0,1,0), localTarget.normalize())` and
`qBend = setFromAxisAngle((0,0,1), -alpha)`.  The argument `localTarget`
stands for `parent.worldToLocal(finalTarget)`, quantified over because the
parent transform is arbitrary scene state. -/
noncomputable def joint1NewQuat (localTarget root target : V3) : Quat :=
  qMul (setFromUnitVectorsQ ⟨0, 1, 0⟩ (normalize3 localTarget))
       (setFromAxisAngleZ (-(alphaAngle root target)))

/-- Local state of one limb: the first joint's quaternion and the second
joint's Euler rotation. -/
structure LimbState where
  joint1Quat : Quat
  joint2Rot : V3

/-- One `ik_drag` move step of `handlePointerMove`: the second joint's
rotation is overwritten by `joint2.rotation.set(0, 0, kneeBend)` and the
first joint's quaternion by `q1.multiply(qBend)`.  The branch never reads
`snapEnabled`; the parameter records that the step can be performed while
snap-to-grid is on. -/
noncomputable def ikMoveStep (st : LimbState) (snapEnabled : Bool)
    (localTarget root target : V3) : LimbState :=
  ⟨joint1NewQuat localTarget root target, ⟨0, 0, kneeBend root target⟩⟩

/-! ## Snap-to-grid quantization -/

/-- Model of `SNAP_ANGLE = Math.PI / 12` (15 degrees). -/
noncomputable def snapStep : ℝ := π / 12

/-- Model of `Math.round(val / STEP) * STEP`. -/
noncomputable def snapVal (v : ℝ) : ℝ := (round (v / snapStep) : ℤ) * snapStep

/-- Snap all three Euler components of one joint. -/
noncomputable def snapEuler (e : V3) : V3 := ⟨snapVal e.x, snapVal e.y, snapVal e.z⟩

/-- The committed local rotation of a `joint_rotate` drag step, given the
Euler angles `e` extracted from the computed orientation quaternion: with
snap on each component is rounded to the grid before committing, otherwise
the computed orientation is committed unchanged. -/
noncomputable def rotStepCommit (snapEnabled : Bool) (e : V3) : V3 :=
  if snapEnabled then snapEuler e else e

/-! ## Skeleton and poses -/

/-- Joint identifier: `limb_<i>_joint_<j>` with `i ∈ [0,8)`; the second
component `0` stands for `joint_1` and `1` for `joint_2`. -/
abbrev JointId := Fin 8 × Fin 2

/-- Skeleton state: the current Euler rotation of each of the 16 joints. -/
abbrev Sk := JointId → V3

/-- A pose object: a partial map from joint ids to rotation triples
(absent keys model keys missing from the JSON object). -/
abbrev Pose := JointId → Option V3

/-- Model of `applyPose` / `applyPoseToRef`: for each joint, if the pose object has
a (truthy) entry under the joint's id, overwrite the joint's rotation with
it; otherwise leave the joint untouched. -/
def applyPose (s : Sk) (p : Pose) : Sk := fun j => (p j).getD (s j)

/-- Model of `Number(v.toFixed(3))`: round to 3 decimal places. -/
noncomputable def round3 (v : ℝ) : ℝ := (round (v * 1000) : ℤ) / 1000

/-- Model of `copyPose`: read every joint's rotation, each component rounded to 3
decimal places. -/
noncomputable def readPose (s : Sk) (j : JointId) : V3 :=
  ⟨round3 (s j).x, round3 (s j).y, round3 (s j).z⟩

/-- The exported pose object: all 16 keys present. -/
noncomputable def exportPose (s : Sk) : Pose := fun j => some (readPose s j)

/-- One-shot `snapToGrid` pass: every joint's Euler components are rounded
to the nearest multiple of `SNAP_ANGLE`. -/
noncomputable def snapToGridPass (s : Sk) : Sk := fun j => snapEuler (s j)

/-- The `INITIAL_POSE` constant of the snap-enabled variant (16 entries). -/
noncomputable def initialRot (j : JointId) : V3 :=
  match j.1.val, j.2.val with
  | 0, 0 => ⟨-0.102, 0.062, 1.451⟩
  | 0, _ => ⟨0, 0, 1.57⟩
  | 1, 0 => ⟨-0.001, -0.062, 1.421⟩
  | 1, _ => ⟨0, 0, 1.57⟩
  | 2, 0 => ⟨-0.109, -0.05, 1.444⟩
  | 2, _ => ⟨0, 0, 1.57⟩
  | 3, 0 => ⟨0.077, 0.365, 1.376⟩
  | 3, _ => ⟨0, 0, 1.57⟩
  | _, 0 => ⟨0, 0, 0⟩
  | _, _ => ⟨0, 0, 1.57⟩

/-- Model of `INITIAL_POSE` as a pose object: every joint id is a key. -/
noncomputable def initialPose : Pose := fun j => some (initialRot j)

/-- Startup cache load:
`try { const cached = localStorage.getItem(CACHE_KEY);
       if (cached) applyPoseToRef(JSON.parse(cached), g);
       else applyPoseToRef(INITIAL_POSE, g); }
 catch (e) { applyPoseToRef(INITIAL_POSE, g); }`.
The argument describes the outcome of the read: `Except.error` models a
throwing `getItem`, `Except.ok none` a missing key, `Except.ok (some r)` a
cached string whose parse outcome is `r`. -/
noncomputable def loadStartupPose (r : Except Unit (Option (Except Unit Pose)))
    (s : Sk) : Sk :=
  match r with
  | Except.error _ => applyPose s initialPose
  | Except.ok none => applyPose s initialPose
  | Except.ok (some (Except.error _)) => applyPose s initialPose
  | Except.ok (some (Except.ok p)) => applyPose s p

/-! ## Sketch-inference application (pose-map variant)

JavaScript `undefined` matters here: `JSON.parse` can yield an object whose
entries miss some of the `x`, `y`, `z` fields, and `rotation.set` then
stores `undefined` components.  A possibly-undefined number is modelled as
`Option ℝ` (`none` = `undefined`). -/

/-- A rotation triple as stored by `rotation.set(x, y, z)` on a joint,
where each component may be `undefined`. -/
structure JRot where
  x : Option ℝ
  y : Option ℝ
  z : Option ℝ

/-- Skeleton state in the undefined-aware model. -/
abbrev SkJ := JointId → JRot

/-- A parsed JSON response interpreted as a pose map: keys that are
present map to an entry whose fields may individually be absent. -/
abbrev PoseJ := JointId → Option JRot

/-- Model of `applyPoseToRef` in the undefined-aware model: any joint whose id is a
key of the parsed object gets its rotation overwritten by the entry's
`(x, y, z)` fields, present or not; no shape validation is performed. -/
def applyPoseJS (s : SkJ) (p : PoseJ) : SkJ := fun j => (p j).getD (s j)

/-- A parsed response conforms to the expected pose shape when every entry
it does have carries all three numeric components. -/
def conformsPose (p : PoseJ) : Prop :=
  ∀ j r, p j = some r → r.x.isSome ∧ r.y.isSome ∧ r.z.isSome

/-- Model of `analyzeSketchAndApply` (pose-map variant): a missing API key, network
error or unparseable response throws before any joint is touched
(`Except.error`), while a parseable response is handed to
`applyPoseToRef` unvalidated. -/
def analyzeSketchAndApply (outcome : Except Unit PoseJ) (s : SkJ) : SkJ :=
  match outcome with
  | Except.error _ => s
  | Except.ok p => applyPoseJS s p

/-- The concrete non-conforming parsed response
`{"limb_0_joint_1": {"x": 1}}`: parseable JSON, but the entry misses its
`y` and `z` fields. -/
def badParsedPose : PoseJ :=
  fun j => if j = ((0 : Fin 8), (0 : Fin 2)) then some ⟨some 1, none, none⟩ else none

/-- A concrete pre-call skeleton state: every joint at rotation
`(0, 0, 0)` with all components defined. -/
def zeroSkJ : SkJ := fun _ => ⟨some 0, some 0, some 0⟩

/-! ## Tip-to-tip magnetic snap (`handlePointerMove`, target search) -/

/-- Model of `SNAP_THRESHOLD = 0.5` world units. -/
noncomputable def snapThreshold : ℝ := 1 / 2

/-- The traversal over the other limbs' tip hitboxes: each element of the
list is `(limbIndex, tip world position)`; the accumulator is
`(minDist, snapPos, snapped)`.  Tips of the dragged limb `n` are skipped,
and a tip strictly closer than the current `minDist` replaces the
candidate. -/
noncomputable def tipSnapFold (n : ℕ) (t : V3) :
    List (ℕ × V3) → ℝ × V3 × Bool → ℝ × V3 × Bool
  | [], acc => acc
  | (i, p) :: rest, (m, sp, sn) =>
    if i = n then tipSnapFold n t rest (m, sp, sn)
    else if dist3 p t < m then tipSnapFold n t rest (dist3 p t, p, true)
    else tipSnapFold n t rest (m, sp, sn)

/-- Model of `finalTarget = snapped ? snapPos : targetPoint`, starting from
`minDist = SNAP_THRESHOLD`, `snapPos = targetPoint.clone()`,
`snapped = false`. -/
noncomputable def ikFinalTarget (tips : List (ℕ × V3)) (n : ℕ) (t : V3) : V3 :=
  let r := tipSnapFold n t tips (snapThreshold, t, false)
  if r.2.2 then r.2.1 else t

/-! ## Camera view snap (`snapCameraToNearestView` and the double-tap
gate in `handlePointerDown`) -/

/-- The six axis-aligned candidate view directions, in enumeration
order. -/
def views : List V3 :=
  [⟨0, 0, 1⟩, ⟨0, 0, -1⟩, ⟨1, 0, 0⟩, ⟨-1, 0, 0⟩, ⟨0, 1, 0⟩, ⟨0, -1, 0⟩]

/-- The `views.forEach` accumulation: `maxDot` starts at `-Infinity`
(modelled by `none`) and `bestView` at `views[0]`; a candidate replaces
the best only on a strictly larger dot product. -/
noncomputable def camFold (dir : V3) :
    List V3 → Option ℝ × V3 → Option ℝ × V3
  | [], acc => acc
  | v :: rest, (m, best) =>
    match m with
    | none => camFold dir rest (some (dot3 dir v), v)
    | some mv =>
      if dot3 dir v > mv
      then camFold dir rest (some (dot3 dir v), v)
      else camFold dir rest (some mv, best)

/-- Model of `snapCameraToNearestView`: offset from the orbit target, its length,
its normalized direction, the best axis by dot product, and the new
camera position `bestView * distance + target`. -/
noncomputable def snapCameraToNearestView (camPos target : V3) : V3 :=
  let offset := vsub camPos target
  let distance := len3 offset
  let direction := normalize3 offset
  let best := (camFold direction views (none, ⟨0, 0, 1⟩)).2
  vadd (smul distance best) target

/-- The double-tap gate of `handlePointerDown`: a pointer-down within
300 ms of the previous tap that hits no part snaps the camera; otherwise
the camera position is untouched by this code path. -/
noncomputable def pointerDownCamera (lastTap now : ℝ) (hit : Bool)
    (camPos target : V3) : V3 :=
  if now - lastTap < 300 then
    (if hit then camPos else snapCameraToNearestView camPos target)
  else camPos

/-- Predicate stating that `v` is the first element of `l` attaining the largest value of `f`:
all earlier elements are strictly smaller and all later ones no larger.
This is the spec-side reading of "largest dot product, ties broken by
enumeration order, strict improvement required". -/
def isFirstMax (f : V3 → ℝ) (l : List V3) (v : V3) : Prop :=
  ∃ l₁ l₂, l = l₁ ++ v :: l₂ ∧ (∀ w ∈ l₁, f w < f v) ∧ ∀ w ∈ l₂, f w ≤ f v

/-! ## Orbit / joint-drag interlock (pointer handlers and the
`orbitEnabled` effect of the snap-enabled variant) -/

/-- The interaction flags: `isDraggingRef.current`,
`controlsRef.current.enabled`, the `orbitEnabled` toggle and the
`grabEnabled` toggle. -/
structure UIState where
  dragging : Bool
  controlsEnabled : Bool
  orbitToggle : Bool
  grabToggle : Bool

/-- The events that touch these flags: a pointer-down that hit (or
missed) a part, a pointer-move, a pointer-up, and a change of the orbit
toggle (whose `useEffect` runs `controls.enabled = orbitEnabled`
unconditionally). -/
inductive UIEvent where
  | pointerDown (hit : Bool)
  | pointerMove
  | pointerUp
  | setOrbitToggle (b : Bool)

/-- Effect of each event on the interaction flags, read off the pointer
handlers: a hit with grab enabled disables the controls and starts the
drag; pointer-move leaves the flags alone; pointer-up unconditionally
ends the drag and sets `controls.enabled = orbitEnabled`; the orbit
toggle effect writes the new toggle value straight into
`controls.enabled`. -/
def uiStep (s : UIState) : UIEvent → UIState
  | UIEvent.pointerDown hit =>
    if hit && s.grabToggle
    then { s with dragging := true, controlsEnabled := false }
    else s
  | UIEvent.pointerMove => s
  | UIEvent.pointerUp => { s with dragging := false, controlsEnabled := s.orbitToggle }
  | UIEvent.setOrbitToggle b => { s with orbitToggle := b, controlsEnabled := b }

/-! ## Helper lemmas -/

/-- Rounding to 3 decimals moves a value by at most `1/2000`. -/
theorem abs_round3_sub_le (v : ℝ) : |round3 v - v| ≤ 1 / 2000 := by
  have h : |v * 1000 - (round (v * 1000) : ℝ)| ≤ 1 / 2 := abs_sub_round (v * 1000)
  have he : round3 v - v = -((v * 1000 - (round (v * 1000) : ℝ)) / 1000) := by
    unfold round3; ring
  rw [he, abs_neg, abs_div]
  rw [abs_of_pos (by norm_num : (0:ℝ) < 1000)]
  linarith

/-! ### C2: export / re-import round trip -/

/-- C2: exporting the pose (each rotation component rounded to 3 decimal
places, all 16 joint ids keyed) and re-importing it via `applyPose`
yields joint rotations within `0.001` radians per component of the
originals. -/
theorem pose_roundtrip_within_tolerance (s : Sk) (j : JointId) :
    |(applyPose s (exportPose s) j).x - (s j).x| ≤ 1 / 1000 ∧
    |(applyPose s (exportPose s) j).y - (s j).y| ≤ 1 / 1000 ∧
    |(applyPose s (exportPose s) j).z - (s j).z| ≤ 1 / 1000 := by
  have hx := abs_round3_sub_le (s j).x
  have hy := abs_round3_sub_le (s j).y
  have hz := abs_round3_sub_le (s j).z
  refine ⟨?_, ?_, ?_⟩ <;>
    simp only [applyPose, exportPose, Option.getD_some, readPose] <;>
    [linarith; linarith; linarith]

/-! ### C3: partial-update semantics of `applyPose` -/

/-- C3: a joint whose id is not a key of the pose object keeps its
rotation exactly unchanged under `applyPose`. -/
theorem applyPose_partial_update (s : Sk) (p : Pose) (j : JointId)
    (h : p j = none) : applyPose s p j = s j := by
  simp [applyPose, h]

/-- Witness for C3: a pose containing only `limb_0_joint_1` leaves
`limb_0_joint_2` (representative of the 15 other joints) exactly as it
was. -/
theorem applyPose_partial_update_witness :
    (fun j : JointId =>
        if j = ((0 : Fin 8), (0 : Fin 2)) then some (⟨1, 1, 1⟩ : V3) else none)
      ((0 : Fin 8), (1 : Fin 2)) = none ∧
    applyPose (fun _ => (⟨0, 0, 0⟩ : V3))
      (fun j : JointId =>
        if j = ((0 : Fin 8), (0 : Fin 2)) then some (⟨1, 1, 1⟩ : V3) else none)
      ((0 : Fin 8), (1 : Fin 2)) = (fun _ => (⟨0, 0, 0⟩ : V3)) ((0 : Fin 8), (1 : Fin 2)) := by
  constructor
  · simp
  · exact applyPose_partial_update _ _ _ (by simp)

/-! ### C9: startup cache load -/

/-- C9: on startup, a throwing `localStorage` read, a missing cache key or
a cached string that fails to parse all make the loader apply the built-in
default pose (and the loader is a total function, so startup cannot
crash); a well-formed cached pose is the one applied.  The last conjunct
records that the default pose is complete: after the fallback every joint
carries exactly the `INITIAL_POSE` rotation, whatever the prior state. -/
theorem startup_cache_fallback (s : Sk) :
    (∀ e : Unit, loadStartupPose (Except.error e) s = applyPose s initialPose) ∧
    loadStartupPose (Except.ok none) s = applyPose s initialPose ∧
    (∀ e : Unit,
      loadStartupPose (Except.ok (some (Except.error e))) s = applyPose s initialPose) ∧
    (∀ p : Pose, loadStartupPose (Except.ok (some (Except.ok p))) s = applyPose s p) ∧
    (∀ j : JointId, loadStartupPose (Except.ok none) s j = initialRot j) :=
  ⟨fun _ => rfl, rfl, fun _ => rfl, fun _ => rfl, fun _ => rfl⟩

/-! ### C8: sketch-inference failure handling -/

/-- C8 counterexample: the parseable but non-conforming response
`{"limb_0_joint_1": {"x": 1}}` is applied without validation and mutates
`limb_0_joint_1`, contradicting the claim that a non-conforming parsed
response leaves every joint rotation unchanged. -/
theorem sketch_nonconforming_mutates :
    ¬ conformsPose badParsedPose ∧
    analyzeSketchAndApply (Except.ok badParsedPose) zeroSkJ ((0 : Fin 8), (0 : Fin 2)) ≠
      zeroSkJ ((0 : Fin 8), (0 : Fin 2)) := by
  constructor
  · intro h
    have hb : badParsedPose ((0 : Fin 8), (0 : Fin 2)) = some ⟨some 1, none, none⟩ := by
      simp [badParsedPose]
    have := (h _ _ hb).2.1
    simp at this
  · intro h
    have hx : (analyzeSketchAndApply (Except.ok badParsedPose) zeroSkJ
        ((0 : Fin 8), (0 : Fin 2))).y = none := by
      simp [analyzeSketchAndApply, applyPoseJS, badParsedPose]
    rw [h] at hx
    simp [zeroSkJ] at hx

/-- C8 (amended): a sketch-inference call that fails before producing
parseable JSON (missing API key, network error, unparseable response)
mutates no joint; a response that does parse is applied with no shape
validation, overwriting exactly the joints whose ids occur as keys —
malformed entries included — and leaving the rest unchanged. -/
theorem sketch_failure_preserves_pose :
    (∀ (e : Unit) (s : SkJ), analyzeSketchAndApply (Except.error e) s = s) ∧
    (∀ (p : PoseJ) (s : SkJ) (j : JointId),
      analyzeSketchAndApply (Except.ok p) s j = (p j).getD (s j)) :=
  ⟨fun _ _ => rfl, fun _ _ _ => rfl⟩

/-! ### C10: IK drag overwrites the second joint's rotation -/

/-- C10: after an `ik_drag` move step, the second joint's local rotation
is exactly `(0, 0, kneeBend)` — its `x` and `y` components are zeroed —
and the step's outcome is independent of the limb state (in particular of
any twist previously on joint 2) and of the snap toggle. -/
theorem ik_drag_overwrites_joint2 (st st' : LimbState) (snap snap' : Bool)
    (localTarget root target : V3) :
    (ikMoveStep st snap localTarget root target).joint2Rot =
        ⟨0, 0, kneeBend root target⟩ ∧
    (ikMoveStep st snap localTarget root target).joint2Rot.x = 0 ∧
    (ikMoveStep st snap localTarget root target).joint2Rot.y = 0 ∧
    ikMoveStep st snap localTarget root target =
      ikMoveStep st' snap' localTarget root target :=
  ⟨rfl, rfl, rfl, rfl⟩

/-! ### C6: orbit / joint-drag mutual exclusion -/

/-- C6 counterexample: starting from an idle state with grab enabled and
orbit off, a pointer-down on a part starts a drag with the controls
disabled, but changing the orbit toggle mid-drag (its effect is
unguarded) re-enables the controls while the drag is still active — the
claim's "enabled = false until the matching pointer-up" fails, and orbit
and joint-drag are simultaneously active. -/
theorem orbit_toggle_mid_drag_breaks_exclusion :
    (uiStep (uiStep ⟨false, false, false, true⟩ (UIEvent.pointerDown true))
        (UIEvent.setOrbitToggle true)).dragging = true ∧
    (uiStep (uiStep ⟨false, false, false, true⟩ (UIEvent.pointerDown true))
        (UIEvent.setOrbitToggle true)).controlsEnabled = true := by
  constructor <;> rfl

/-- C6 (amended): under the pointer events alone — pointer-down,
pointer-move, pointer-up — a state in which dragging implies disabled
controls keeps that property, so orbit and joint-drag stay mutually
exclusive as long as the orbit toggle is not changed mid-drag; and every
pointer-up unconditionally ends the drag and restores
`controls.enabled` to the current orbit-toggle value, however the drag
ended. -/
theorem orbit_drag_exclusion_under_pointer_events (s : UIState)
    (hInv : s.dragging = true → s.controlsEnabled = false) :
    (∀ hit : Bool, (uiStep s (UIEvent.pointerDown hit)).dragging = true →
      (uiStep s (UIEvent.pointerDown hit)).controlsEnabled = false) ∧
    ((uiStep s UIEvent.pointerMove).dragging = true →
      (uiStep s UIEvent.pointerMove).controlsEnabled = false) ∧
    (uiStep s UIEvent.pointerUp).controlsEnabled = s.orbitToggle ∧
    (uiStep s UIEvent.pointerUp).dragging = false := by
  refine ⟨?_, hInv, rfl, rfl⟩
  intro hit
  by_cases h : (hit && s.grabToggle) = true
  · simp [uiStep, h]
  · simp only [uiStep, h, if_neg]
    simpa [h] using hInv

/-- Witness for C6 (amended): instantiation at a mid-drag state (dragging
with controls disabled, orbit toggle on), with the invariant hypothesis
discharged. -/
theorem orbit_drag_exclusion_witness :
    ((⟨true, false, true, true⟩ : UIState).dragging = true →
      (⟨true, false, true, true⟩ : UIState).controlsEnabled = false) ∧
    ((∀ hit : Bool,
        (uiStep ⟨true, false, true, true⟩ (UIEvent.pointerDown hit)).dragging = true →
        (uiStep ⟨true, false, true, true⟩ (UIEvent.pointerDown hit)).controlsEnabled = false) ∧
      ((uiStep ⟨true, false, true, true⟩ UIEvent.pointerMove).dragging = true →
        (uiStep ⟨true, false, true, true⟩ UIEvent.pointerMove).controlsEnabled = false) ∧
      (uiStep ⟨true, false, true, true⟩ UIEvent.pointerUp).controlsEnabled =
        (⟨true, false, true, true⟩ : UIState).orbitToggle ∧
      (uiStep ⟨true, false, true, true⟩ UIEvent.pointerUp).dragging = false) :=
  ⟨fun _ => rfl,
   orbit_drag_exclusion_under_pointer_events ⟨true, false, true, true⟩ (fun _ => rfl)⟩

/-! ### Quaternion norm lemmas -/

/-- The squared norm of a quaternion is nonnegative. -/
theorem qNormSq_nonneg (q : Quat) : 0 ≤ qNormSq q := by
  unfold qNormSq; positivity

/-- Scaling a quaternion scales its squared norm quadratically. -/
theorem qNormSq_qScale (c : ℝ) (q : Quat) :
    qNormSq (qScale c q) = c ^ 2 * qNormSq q := by
  simp only [qScale, qNormSq]; ring

/-- three.js `Quaternion.normalize` always yields a unit quaternion: the
zero-length guard returns the identity, and otherwise the components are
divided by the (nonzero) length. -/
theorem qNormSq_qNormalize (q : Quat) : qNormSq (qNormalize q) = 1 := by
  unfold qNormalize
  by_cases h : qLength q = 0
  · simp [h, qNormSq]
  · rw [if_neg h, qNormSq_qScale]
    have h0 : 0 ≤ qNormSq q := qNormSq_nonneg q
    have hsq : qLength q ^ 2 = qNormSq q := Real.sq_sqrt h0
    have hne : qLength q ≠ 0 := h
    field_simp
    linarith

/-- The squared norm is multiplicative for the Hamilton product. -/
theorem qNormSq_qMul (a b : Quat) :
    qNormSq (qMul a b) = qNormSq a * qNormSq b := by
  simp only [qMul, qNormSq]; ring

/-- Lemma: `setFromUnitVectors` always returns a unit quaternion (both the
generic and the antiparallel branch end in `normalize`). -/
theorem qNormSq_setFromUnitVectors (a b : V3) :
    qNormSq (setFromUnitVectorsQ a b) = 1 := by
  unfold setFromUnitVectorsQ
  split_ifs <;> exact qNormSq_qNormalize _

/-- Lemma: `setFromAxisAngle((0,0,1), angle)` is a unit quaternion. -/
theorem qNormSq_setFromAxisAngleZ (angle : ℝ) :
    qNormSq (setFromAxisAngleZ angle) = 1 := by
  simp [setFromAxisAngleZ, qNormSq, Real.sin_sq_add_cos_sq]

/-! ### Clamp lemmas -/

/-- The clamped cosine argument is at least `-1`. -/
theorem neg_one_le_clampUnit (v : ℝ) : -1 ≤ clampUnit v := le_max_left _ _

/-- The clamped cosine argument is at most `1`. -/
theorem clampUnit_le_one (v : ℝ) : clampUnit v ≤ 1 :=
  max_le (by norm_num) (min_le_left _ _)

/-! ### C1: two-bone IK solve correctness and NaN-freedom -/

/-- C1: with segment lengths `l1 = 1.5`, `l2 = 2.0`, the solver clamps the
root-to-target distance to `l1 + l2 - 0.01` exactly when it exceeds that
bound (the distance used is the minimum of the raw distance and the
bound); the second joint's bend equals
`π - acos(clamp((l1²+l2²-d²)/(2·l1·l2), -1, 1))` and the shoulder offset
equals `acos(clamp((l1²+d²-l2²)/(2·l1·d), -1, 1))`; and for every target
the computation stays well defined: both `acos` arguments lie in
`[-1, 1]`, both angles lie in `[0, π]`, and the quaternion committed to
the first joint is a unit quaternion (no NaN or undefined component). -/
theorem ik_two_bone_solver_spec (root target localTarget : V3) :
    ikDist root target = min (ikRawDist root target) (l1 + l2 - 1 / 100) ∧
    kneeBend root target =
      π - Real.arccos (max (-1) (min 1
        ((l1 ^ 2 + l2 ^ 2 - ikDist root target ^ 2) / (2 * l1 * l2)))) ∧
    alphaAngle root target =
      Real.arccos (max (-1) (min 1
        ((l1 ^ 2 + ikDist root target ^ 2 - l2 ^ 2) / (2 * l1 * ikDist root target)))) ∧
    (-1 ≤ clampUnit (cosKnee (ikDist root target)) ∧
      clampUnit (cosKnee (ikDist root target)) ≤ 1) ∧
    (-1 ≤ clampUnit (cosAlpha (ikDist root target)) ∧
      clampUnit (cosAlpha (ikDist root target)) ≤ 1) ∧
    (0 ≤ kneeBend root target ∧ kneeBend root target ≤ π) ∧
    (0 ≤ alphaAngle root target ∧ alphaAngle root target ≤ π) ∧
    qNormSq (joint1NewQuat localTarget root target) = 1 := by
  refine ⟨?_, rfl, rfl, ⟨neg_one_le_clampUnit _, clampUnit_le_one _⟩,
    ⟨neg_one_le_clampUnit _, clampUnit_le_one _⟩, ⟨?_, ?_⟩, ⟨?_, ?_⟩, ?_⟩
  · unfold ikDist
    rcases le_or_lt (ikRawDist root target) (l1 + l2 - 1 / 100) with h | h
    · rw [if_neg (not_lt.mpr h), min_eq_left h]
    · rw [if_pos h, min_eq_right h.le]
  · have := Real.arccos_le_pi (clampUnit (cosKnee (ikDist root target)))
    unfold kneeBend; linarith
  · have := Real.arccos_nonneg (clampUnit (cosKnee (ikDist root target)))
    unfold kneeBend; linarith [Real.pi_pos]
  · exact Real.arccos_nonneg _
  · exact Real.arccos_le_pi _
  · unfold joint1NewQuat
    rw [qNormSq_qMul, qNormSq_setFromUnitVectors, qNormSq_setFromAxisAngleZ]
    norm_num

/-! ### Vector norm lemmas -/

/-- Lengths are nonnegative. -/
theorem len3_nonneg (v : V3) : 0 ≤ len3 v := Real.sqrt_nonneg _

/-- Scaling a vector scales its length by the absolute scalar. -/
theorem len3_smul (c : ℝ) (v : V3) : len3 (smul c v) = |c| * len3 v := by
  unfold len3 smul lenSq dot3
  rw [show c * v.x * (c * v.x) + c * v.y * (c * v.y) + c * v.z * (c * v.z) =
      c ^ 2 * (v.x * v.x + v.y * v.y + v.z * v.z) from by ring,
    Real.sqrt_mul (sq_nonneg c), Real.sqrt_sq_eq_abs]

/-- Subtracting the translation recovers the offset. -/
theorem vsub_vadd (u t : V3) : vsub (vadd u t) t = u := by
  ext <;> simp [vsub, vadd]

/-- Each of the six candidate view directions is a unit vector. -/
theorem views_len3 (v : V3) (hv : v ∈ views) : len3 v = 1 := by
  simp only [views, List.mem_cons, List.not_mem_nil, or_false] at hv
  rcases hv with rfl | rfl | rfl | rfl | rfl | rfl <;>
    · unfold len3 lenSq dot3
      norm_num

/-! ### Camera fold lemmas -/

/-- Single unfolding step: a `-Infinity` running maximum is always
beaten. -/
theorem camFold_none_step (dir v : V3) (rest : List V3) (b : V3) :
    camFold dir (v :: rest) (none, b) =
      camFold dir rest (some (dot3 dir v), v) := rfl

/-- Single unfolding step for a finite running maximum. -/
theorem camFold_some_step (dir v : V3) (rest : List V3) (m : ℝ) (b : V3) :
    camFold dir (v :: rest) (some m, b) =
      if dot3 dir v > m then camFold dir rest (some (dot3 dir v), v)
      else camFold dir rest (some m, b) := rfl

/-- Soundness of the strict-improvement fold: starting from running
maximum `m` held by `b`, either nothing in the list beats `m` and the
accumulator is returned unchanged, or the result is the first list
element attaining the largest dot product, every earlier element being
strictly smaller and every later one no larger. -/
theorem camFold_sound (dir : V3) (l : List V3) : ∀ (m : ℝ) (b : V3),
    (camFold dir l (some m, b) = (some m, b) ∧ ∀ w ∈ l, dot3 dir w ≤ m) ∨
    (∃ l₁ l₂ : List V3,
      l = l₁ ++ (camFold dir l (some m, b)).2 :: l₂ ∧
      m < dot3 dir (camFold dir l (some m, b)).2 ∧
      (∀ w ∈ l₁, dot3 dir w < dot3 dir (camFold dir l (some m, b)).2) ∧
      (∀ w ∈ l₂, dot3 dir w ≤ dot3 dir (camFold dir l (some m, b)).2)) := by
  induction l with
  | nil =>
    intro m b; left; exact ⟨rfl, by simp⟩
  | cons v rest ih =>
    intro m b
    by_cases h : dot3 dir v > m
    · have hred : camFold dir (v :: rest) (some m, b) =
          camFold dir rest (some (dot3 dir v), v) := by
        rw [camFold_some_step, if_pos h]
      rcases ih (dot3 dir v) v with ⟨heq, hall⟩ | ⟨l₁, l₂, hsplit, h2, h3, h4⟩
      · right
        refine ⟨[], rest, ?_, ?_, by simp, ?_⟩
        · simp [hred, heq]
        · rw [hred, heq]
          exact h
        · intro w hw
          rw [hred, heq]
          exact hall w hw
      · right
        refine ⟨v :: l₁, l₂, ?_, ?_, ?_, ?_⟩
        · rw [hred]
          exact congrArg (List.cons v) hsplit
        · rw [hred]
          exact lt_trans h h2
        · intro w hw
          rw [hred]
          rcases List.mem_cons.mp hw with rfl | hw'
          · exact h2
          · exact h3 w hw'
        · intro w hw
          rw [hred]
          exact h4 w hw
    · have hred : camFold dir (v :: rest) (some m, b) =
          camFold dir rest (some m, b) := by
        rw [camFold_some_step, if_neg h]
      rcases ih m b with ⟨heq, hall⟩ | ⟨l₁, l₂, hsplit, h2, h3, h4⟩
      · left
        refine ⟨by rw [hred, heq], ?_⟩
        intro w hw
        rcases List.mem_cons.mp hw with rfl | hw'
        · exact not_lt.mp h
        · exact hall w hw'
      · right
        refine ⟨v :: l₁, l₂, ?_, ?_, ?_, ?_⟩
        · rw [hred]
          exact congrArg (List.cons v) hsplit
        · rw [hred]
          exact h2
        · intro w hw
          rw [hred]
          rcases List.mem_cons.mp hw with rfl | hw'
          · exact lt_of_le_of_lt (not_lt.mp h) h2
          · exact h3 w hw'
        · intro w hw
          rw [hred]
          exact h4 w hw

/-- The winner of the full `views` fold is the first candidate attaining
the largest dot product with `dir`. -/
theorem camFold_views_spec (dir : V3) :
    isFirstMax (fun w => dot3 dir w) views
      ((camFold dir views (none, ⟨0, 0, 1⟩)).2) := by
  have h0 : camFold dir views (none, ⟨0, 0, 1⟩) =
      camFold dir [⟨0, 0, -1⟩, ⟨1, 0, 0⟩, ⟨-1, 0, 0⟩, ⟨0, 1, 0⟩, ⟨0, -1, 0⟩]
        (some (dot3 dir ⟨0, 0, 1⟩), ⟨0, 0, 1⟩) := rfl
  rcases camFold_sound dir
      [⟨0, 0, -1⟩, ⟨1, 0, 0⟩, ⟨-1, 0, 0⟩, ⟨0, 1, 0⟩, ⟨0, -1, 0⟩]
      (dot3 dir ⟨0, 0, 1⟩) ⟨0, 0, 1⟩ with
    ⟨heq, hall⟩ | ⟨l₁, l₂, hsplit, h2, h3, h4⟩
  · refine ⟨[], [⟨0, 0, -1⟩, ⟨1, 0, 0⟩, ⟨-1, 0, 0⟩, ⟨0, 1, 0⟩, ⟨0, -1, 0⟩],
      ?_, by simp, ?_⟩
    · rw [h0, heq]; rfl
    · intro w hw; rw [h0, heq]; exact hall w hw
  · refine ⟨⟨0, 0, 1⟩ :: l₁, l₂, ?_, ?_, ?_⟩
    · rw [h0]
      show views = (⟨0, 0, 1⟩ :: l₁) ++ _ :: l₂
      rw [List.cons_append]
      show (⟨0, 0, 1⟩ : V3) ::
          [⟨0, 0, -1⟩, ⟨1, 0, 0⟩, ⟨-1, 0, 0⟩, ⟨0, 1, 0⟩, ⟨0, -1, 0⟩] = _
      rw [← hsplit]
    · intro w hw
      rw [h0]
      rcases List.mem_cons.mp hw with rfl | hw'
      · exact h2
      · exact h3 w hw'
    · intro w hw; rw [h0]; exact h4 w hw

/-! ### C5: double-tap camera view snap -/

/-- C5: a second pointer-down within 300 ms that hits no part moves the
camera to `target + d·v`, where `v` is the first of the six axis-aligned
unit directions attaining the largest dot product with the normalized
camera offset (strict improvement required, ties broken by enumeration
order) and `d` is the pre-snap camera-to-target distance, which the snap
leaves unchanged. -/
theorem camera_double_tap_snap (lastTap now : ℝ) (camPos target : V3)
    (h : now - lastTap < 300) :
    ∃ v : V3,
      isFirstMax (fun w => dot3 (normalize3 (vsub camPos target)) w) views v ∧
      pointerDownCamera lastTap now false camPos target =
        vadd (smul (len3 (vsub camPos target)) v) target ∧
      len3 (vsub (pointerDownCamera lastTap now false camPos target) target) =
        len3 (vsub camPos target) := by
  have hpd : pointerDownCamera lastTap now false camPos target =
      snapCameraToNearestView camPos target := by
    unfold pointerDownCamera
    rw [if_pos h]
    simp
  have hfm := camFold_views_spec (normalize3 (vsub camPos target))
  refine ⟨(camFold (normalize3 (vsub camPos target)) views (none, ⟨0, 0, 1⟩)).2,
    hfm, ?_, ?_⟩
  · rw [hpd]; rfl
  · rw [hpd]
    have hmem : (camFold (normalize3 (vsub camPos target)) views (none, ⟨0, 0, 1⟩)).2
        ∈ views := by
      rcases hfm with ⟨l₁, l₂, hs, _, _⟩
      have hx : (camFold (normalize3 (vsub camPos target)) views (none, ⟨0, 0, 1⟩)).2
          ∈ l₁ ++ (camFold (normalize3 (vsub camPos target)) views
              (none, ⟨0, 0, 1⟩)).2 :: l₂ := by
        simp
      rw [← hs] at hx
      exact hx
    have hlen := views_len3 _ hmem
    show len3 (vsub (vadd (smul (len3 (vsub camPos target)) _) target) target) = _
    rw [vsub_vadd, len3_smul, hlen, mul_one, abs_of_nonneg (len3_nonneg _)]

/-- Witness for C5: a double-tap 100 ms after the previous tap, camera at
the oblique position `(1, 2, 2)` orbiting the origin. -/
theorem camera_double_tap_snap_witness :
    ((100 : ℝ) - 0 < 300) ∧
    ∃ v : V3,
      isFirstMax (fun w => dot3 (normalize3 (vsub ⟨1, 2, 2⟩ ⟨0, 0, 0⟩)) w) views v ∧
      pointerDownCamera 0 100 false ⟨1, 2, 2⟩ ⟨0, 0, 0⟩ =
        vadd (smul (len3 (vsub ⟨1, 2, 2⟩ ⟨0, 0, 0⟩)) v) ⟨0, 0, 0⟩ ∧
      len3 (vsub (pointerDownCamera 0 100 false ⟨1, 2, 2⟩ ⟨0, 0, 0⟩) ⟨0, 0, 0⟩) =
        len3 (vsub ⟨1, 2, 2⟩ ⟨0, 0, 0⟩) :=
  ⟨by norm_num, camera_double_tap_snap 0 100 ⟨1, 2, 2⟩ ⟨0, 0, 0⟩ (by norm_num)⟩

/-! ### Tip-snap fold lemmas -/

/-- Single unfolding step of the tip traversal. -/
theorem tipSnapFold_cons (n : ℕ) (t : V3) (i : ℕ) (p : V3)
    (rest : List (ℕ × V3)) (m : ℝ) (sp : V3) (sn : Bool) :
    tipSnapFold n t ((i, p) :: rest) (m, sp, sn) =
      if i = n then tipSnapFold n t rest (m, sp, sn)
      else if dist3 p t < m then tipSnapFold n t rest (dist3 p t, p, true)
      else tipSnapFold n t rest (m, sp, sn) := rfl

/-- Invariant of the tip traversal: the running minimum never increases
and ends up below every non-own tip distance, and the accumulator either
passes through unchanged or holds a strictly closer non-own tip whose
exact position and distance it records. -/
theorem tipSnapFold_invariant (n : ℕ) (t : V3) (l : List (ℕ × V3)) :
    ∀ (m : ℝ) (sp : V3) (sn : Bool),
      (tipSnapFold n t l (m, sp, sn)).1 ≤ m ∧
      (∀ pr ∈ l, pr.1 ≠ n → (tipSnapFold n t l (m, sp, sn)).1 ≤ dist3 pr.2 t) ∧
      (tipSnapFold n t l (m, sp, sn) = (m, sp, sn) ∨
        ((tipSnapFold n t l (m, sp, sn)).2.2 = true ∧
          (tipSnapFold n t l (m, sp, sn)).1 < m ∧
          dist3 (tipSnapFold n t l (m, sp, sn)).2.1 t =
            (tipSnapFold n t l (m, sp, sn)).1 ∧
          ∃ pr ∈ l, pr.1 ≠ n ∧ pr.2 = (tipSnapFold n t l (m, sp, sn)).2.1)) := by
  induction l with
  | nil =>
    intro m sp sn
    exact ⟨le_refl m, by simp, Or.inl rfl⟩
  | cons hd rest ih =>
    intro m sp sn
    obtain ⟨i, p⟩ := hd
    by_cases hi : i = n
    · have hred : tipSnapFold n t ((i, p) :: rest) (m, sp, sn) =
          tipSnapFold n t rest (m, sp, sn) := by
        rw [tipSnapFold_cons, if_pos hi]
      obtain ⟨ih1, ih2, ih3⟩ := ih m sp sn
      refine ⟨by rw [hred]; exact ih1, ?_, ?_⟩
      · intro pr hpr hne
        rw [hred]
        rcases List.mem_cons.mp hpr with rfl | h'
        · exact absurd hi hne
        · exact ih2 pr h' hne
      · rw [hred]
        rcases ih3 with h3 | ⟨ha, hb, hc, pr, hpr, hne, heq⟩
        · exact Or.inl h3
        · exact Or.inr ⟨ha, hb, hc, pr, List.mem_cons_of_mem _ hpr, hne, heq⟩
    · by_cases hcl : dist3 p t < m
      · have hred : tipSnapFold n t ((i, p) :: rest) (m, sp, sn) =
            tipSnapFold n t rest (dist3 p t, p, true) := by
          rw [tipSnapFold_cons, if_neg hi, if_pos hcl]
        obtain ⟨ih1, ih2, ih3⟩ := ih (dist3 p t) p true
        refine ⟨?_, ?_, ?_⟩
        · rw [hred]
          exact le_of_lt (lt_of_le_of_lt ih1 hcl)
        · intro pr hpr hne
          rw [hred]
          rcases List.mem_cons.mp hpr with rfl | h'
          · exact ih1
          · exact ih2 pr h' hne
        · rw [hred]
          rcases ih3 with h3 | ⟨ha, hb, hc, pr, hpr, hne, heq⟩
          · rw [h3]
            exact Or.inr ⟨rfl, hcl, rfl, (i, p), List.mem_cons_self _ _, hi, rfl⟩
          · exact Or.inr ⟨ha, lt_trans hb hcl, hc, pr,
              List.mem_cons_of_mem _ hpr, hne, heq⟩
      · have hred : tipSnapFold n t ((i, p) :: rest) (m, sp, sn) =
            tipSnapFold n t rest (m, sp, sn) := by
          rw [tipSnapFold_cons, if_neg hi, if_neg hcl]
        obtain ⟨ih1, ih2, ih3⟩ := ih m sp sn
        refine ⟨by rw [hred]; exact ih1, ?_, ?_⟩
        · intro pr hpr hne
          rw [hred]
          rcases List.mem_cons.mp hpr with rfl | h'
          · exact le_trans ih1 (not_lt.mp hcl)
          · exact ih2 pr h' hne
        · rw [hred]
          rcases ih3 with h3 | ⟨ha, hb, hc, pr, hpr, hne, heq⟩
          · exact Or.inl h3
          · exact Or.inr ⟨ha, hb, hc, pr, List.mem_cons_of_mem _ hpr, hne, heq⟩

/-- Tips of the dragged limb never influence the traversal: folding over
the list is the same as folding over the list with them filtered out. -/
theorem tipSnapFold_filter (n : ℕ) (t : V3) (l : List (ℕ × V3)) :
    ∀ acc, tipSnapFold n t l acc =
      tipSnapFold n t (l.filter (fun pr => pr.1 != n)) acc := by
  induction l with
  | nil =>
    intro acc; rfl
  | cons hd rest ih =>
    intro acc
    obtain ⟨i, p⟩ := hd
    obtain ⟨m, sp, sn⟩ := acc
    by_cases hi : i = n
    · have hf : List.filter (fun pr => pr.1 != n) ((i, p) :: rest) =
          List.filter (fun pr => pr.1 != n) rest := by
        simp [List.filter_cons, hi]
      rw [tipSnapFold_cons, if_pos hi, hf]
      exact ih _
    · have hf : List.filter (fun pr => pr.1 != n) ((i, p) :: rest) =
          (i, p) :: List.filter (fun pr => pr.1 != n) rest := by
        simp [List.filter_cons, hi]
      rw [hf, tipSnapFold_cons, tipSnapFold_cons, if_neg hi, if_neg hi]
      by_cases hcl : dist3 p t < m
      · rw [if_pos hcl, if_pos hcl]
        exact ih _
      · rw [if_neg hcl, if_neg hcl]
        exact ih _

/-! ### C7: tip-to-tip magnetic snap -/

/-- C7: during an IK tip drag, if some other limb's tip lies strictly
within `SNAP_THRESHOLD = 0.5` of the live target, the target is replaced
by the exact world position of a closest such tip (no farther than any
other limb's tip); if every other limb's tip is farther than `0.5`, the
target is left unmodified; and tips of the dragged limb itself never
participate in the search. -/
theorem tip_magnet_snap (tips : List (ℕ × V3)) (n : ℕ) (t : V3) :
    ((∃ pr ∈ tips, pr.1 ≠ n ∧ dist3 pr.2 t < 1 / 2) →
      ∃ pr ∈ tips, pr.1 ≠ n ∧ ikFinalTarget tips n t = pr.2 ∧
        dist3 pr.2 t < 1 / 2 ∧
        ∀ qr ∈ tips, qr.1 ≠ n → dist3 pr.2 t ≤ dist3 qr.2 t) ∧
    ((∀ pr ∈ tips, pr.1 ≠ n → 1 / 2 < dist3 pr.2 t) →
      ikFinalTarget tips n t = t) ∧
    ikFinalTarget tips n t =
      ikFinalTarget (tips.filter (fun pr => pr.1 != n)) n t := by
  obtain ⟨h1, h2, h3⟩ := tipSnapFold_invariant n t tips snapThreshold t false
  refine ⟨?_, ?_, ?_⟩
  · rintro ⟨pr, hpr, hne, hclose⟩
    rcases h3 with he | ⟨ha, hb, hc, qr, hqr, hqne, hqeq⟩
    · exfalso
      have hge := h2 pr hpr hne
      rw [he] at hge
      have : snapThreshold < 1 / 2 := lt_of_le_of_lt hge hclose
      norm_num [snapThreshold] at this
    · refine ⟨qr, hqr, hqne, ?_, ?_, ?_⟩
      · unfold ikFinalTarget
        simp only [ha, if_true]
        exact hqeq.symm
      · rw [hqeq, hc]
        have : snapThreshold = 1 / 2 := by norm_num [snapThreshold]
        linarith
      · intro qr' hqr' hne'
        rw [hqeq, hc]
        exact h2 qr' hqr' hne'
  · intro hall
    rcases h3 with he | ⟨ha, hb, hc, qr, hqr, hqne, hqeq⟩
    · simp [ikFinalTarget, he]
    · exfalso
      have h5 := hall qr hqr hqne
      rw [hqeq, hc] at h5
      have : (1 : ℝ) / 2 < snapThreshold := lt_trans h5 hb
      norm_num [snapThreshold] at this
  · unfold ikFinalTarget
    rw [tipSnapFold_filter n t tips]

/-- Witness for C7: a single other-limb tip at `(1/4, 0, 0)` snaps a
target at the origin (distance `1/4 < 0.5`), while a single other-limb
tip at `(2, 0, 0)` leaves the target unmodified (distance `2 > 0.5`). -/
theorem tip_magnet_snap_witness :
    ((∃ pr ∈ [((1 : ℕ), (⟨1 / 4, 0, 0⟩ : V3))],
        pr.1 ≠ 0 ∧ dist3 pr.2 ⟨0, 0, 0⟩ < 1 / 2) ∧
      ∃ pr ∈ [((1 : ℕ), (⟨1 / 4, 0, 0⟩ : V3))],
        pr.1 ≠ 0 ∧
        ikFinalTarget [((1 : ℕ), (⟨1 / 4, 0, 0⟩ : V3))] 0 ⟨0, 0, 0⟩ = pr.2 ∧
        dist3 pr.2 ⟨0, 0, 0⟩ < 1 / 2 ∧
        ∀ qr ∈ [((1 : ℕ), (⟨1 / 4, 0, 0⟩ : V3))], qr.1 ≠ 0 →
          dist3 pr.2 ⟨0, 0, 0⟩ ≤ dist3 qr.2 ⟨0, 0, 0⟩) ∧
    ((∀ pr ∈ [((1 : ℕ), (⟨2, 0, 0⟩ : V3))],
        pr.1 ≠ 0 → 1 / 2 < dist3 pr.2 ⟨0, 0, 0⟩) ∧
      ikFinalTarget [((1 : ℕ), (⟨2, 0, 0⟩ : V3))] 0 ⟨0, 0, 0⟩ = ⟨0, 0, 0⟩) := by
  have h14 : dist3 (⟨1 / 4, 0, 0⟩ : V3) ⟨0, 0, 0⟩ = 1 / 4 := by
    simp only [dist3, len3, vsub, lenSq, dot3]
    rw [show (1 / 4 - 0) * (1 / 4 - 0) + ((0 : ℝ) - 0) * (0 - 0) +
        ((0 : ℝ) - 0) * (0 - 0) = (1 / 4 : ℝ) ^ 2 by norm_num]
    exact Real.sqrt_sq (by norm_num)
  have h20 : dist3 (⟨2, 0, 0⟩ : V3) ⟨0, 0, 0⟩ = 2 := by
    simp only [dist3, len3, vsub, lenSq, dot3]
    rw [show ((2 : ℝ) - 0) * (2 - 0) + ((0 : ℝ) - 0) * (0 - 0) +
        ((0 : ℝ) - 0) * (0 - 0) = (2 : ℝ) ^ 2 by norm_num]
    exact Real.sqrt_sq (by norm_num)
  have hypA : ∃ pr ∈ [((1 : ℕ), (⟨1 / 4, 0, 0⟩ : V3))],
      pr.1 ≠ 0 ∧ dist3 pr.2 ⟨0, 0, 0⟩ < 1 / 2 := by
    refine ⟨(1, ⟨1 / 4, 0, 0⟩), by simp, by norm_num, ?_⟩
    rw [show ((1 : ℕ), (⟨1 / 4, 0, 0⟩ : V3)).2 = (⟨1 / 4, 0, 0⟩ : V3) from rfl, h14]
    norm_num
  have hypB : ∀ pr ∈ [((1 : ℕ), (⟨2, 0, 0⟩ : V3))],
      pr.1 ≠ 0 → 1 / 2 < dist3 pr.2 ⟨0, 0, 0⟩ := by
    intro pr hpr _
    simp only [List.mem_singleton] at hpr
    subst hpr
    rw [show ((1 : ℕ), (⟨2, 0, 0⟩ : V3)).2 = (⟨2, 0, 0⟩ : V3) from rfl, h20]
    norm_num
  exact ⟨⟨hypA, (tip_magnet_snap _ 0 _).1 hypA⟩,
    ⟨hypB, (tip_magnet_snap _ 0 _).2.1 hypB⟩⟩

/-! ### Snap quantization lemmas -/

/-- Lemma: `Math.round(val / STEP) * STEP` is an exact integer multiple of the
step `π / 12`. -/
theorem snapVal_is_multiple (v : ℝ) : ∃ k : ℤ, snapVal v = k * (π / 12) :=
  ⟨round (v / snapStep), rfl⟩

/-! ### C4 (amended): quantization of committed components -/

/-- C4 (amended): whenever snap-to-grid is enabled, every Euler component
committed by a joint-rotate drag step and every component produced by the
one-shot snap pass over all joints is an exact integer multiple of
`π / 12`; IK tip-drag steps, however, bypass the quantization (see the
counterexample). -/
theorem snap_quantizes_committed_components (e : V3) (s : Sk) (j : JointId) :
    (∃ k : ℤ, (rotStepCommit true e).x = k * (π / 12)) ∧
    (∃ k : ℤ, (rotStepCommit true e).y = k * (π / 12)) ∧
    (∃ k : ℤ, (rotStepCommit true e).z = k * (π / 12)) ∧
    (∃ k : ℤ, (snapToGridPass s j).x = k * (π / 12)) ∧
    (∃ k : ℤ, (snapToGridPass s j).y = k * (π / 12)) ∧
    (∃ k : ℤ, (snapToGridPass s j).z = k * (π / 12)) := by
  refine ⟨?_, ?_, ?_, ?_, ?_, ?_⟩ <;> exact snapVal_is_multiple _

/-! ### C4 counterexample: the IK branch ignores the snap toggle -/

/-- The clamped distance for the out-of-reach target `(4, 0, 0)` dragged
from a root at the origin. -/
theorem ikDist_counterexample_input :
    ikDist ⟨0, 0, 0⟩ ⟨4, 0, 0⟩ = 349 / 100 := by
  have hraw : ikRawDist ⟨0, 0, 0⟩ ⟨4, 0, 0⟩ = 4 := by
    simp only [ikRawDist, len3, vsub, lenSq, dot3]
    rw [show ((4 : ℝ) - 0) * (4 - 0) + ((0 : ℝ) - 0) * (0 - 0) +
        ((0 : ℝ) - 0) * (0 - 0) = (4 : ℝ) ^ 2 by norm_num]
    exact Real.sqrt_sq (by norm_num)
  unfold ikDist
  rw [hraw, if_pos (by norm_num [l1, l2])]
  norm_num [l1, l2]

/-- The knee bend committed for that target. -/
theorem kneeBend_counterexample_input :
    kneeBend ⟨0, 0, 0⟩ ⟨4, 0, 0⟩ = π - Real.arccos (-(19767 / 20000)) := by
  unfold kneeBend
  rw [ikDist_counterexample_input]
  norm_num [clampUnit, cosKnee, l1, l2, min_def, max_def]

/-- The `acos` value for the clamped argument lies strictly between
`11π/12` and `π`, so the committed knee bend lies strictly between `0`
and `π/12`. -/
theorem arccos_counterexample_bounds :
    11 * π / 12 < Real.arccos (-(19767 / 20000)) ∧
    Real.arccos (-(19767 / 20000)) < π := by
  constructor
  · by_contra hc
    push_neg at hc
    have h0 : 0 ≤ Real.arccos (-(19767 / 20000)) := Real.arccos_nonneg _
    have h11 : 11 * π / 12 ≤ π := by linarith [Real.pi_pos]
    have hcc : Real.cos (11 * π / 12) ≤
        Real.cos (Real.arccos (-(19767 / 20000))) :=
      Real.cos_le_cos_of_nonneg_of_le_pi h0 h11 hc
    rw [Real.cos_arccos (by norm_num) (by norm_num)] at hcc
    rw [show 11 * π / 12 = π - π / 12 by ring, Real.cos_pi_sub] at hcc
    have hb : Real.cos (π / 12) ≤ 1 - 2 / π ^ 2 * (π / 12) ^ 2 := by
      apply Real.cos_le_one_sub_mul_cos_sq
      rw [abs_of_nonneg (by positivity)]
      linarith [Real.pi_pos]
    have hsimp : 1 - 2 / π ^ 2 * (π / 12) ^ 2 = 1 - 1 / 72 := by
      have hpi : π ≠ 0 := Real.pi_ne_zero
      field_simp
      ring
    rw [hsimp] at hb
    linarith
  · refine lt_of_le_of_ne (Real.arccos_le_pi _) (fun he => ?_)
    have := Real.arccos_eq_pi.mp he
    norm_num at this

/-- C4 counterexample: an IK tip-drag step performed with snap-to-grid
enabled (target `(4, 0, 0)`, limb root at the origin) commits
`joint2.rotation.z = kneeBend ≈ 0.1526`, which is strictly between `0`
and `π/12` and hence no integer multiple of `π/12`: the `ik_drag` branch
never consults the snap toggle, so the claim fails as stated. -/
theorem ik_drag_ignores_snap_counterexample :
    ¬ ∃ k : ℤ,
      (ikMoveStep ⟨⟨0, 0, 0, 1⟩, ⟨0, 0, 0⟩⟩ true ⟨4, 0, 0⟩ ⟨0, 0, 0⟩
          ⟨4, 0, 0⟩).joint2Rot.z = k * (π / 12) := by
  rintro ⟨k, hk⟩
  have hkb : (ikMoveStep (⟨⟨0, 0, 0, 1⟩, ⟨0, 0, 0⟩⟩ : LimbState) true ⟨4, 0, 0⟩
      ⟨0, 0, 0⟩ ⟨4, 0, 0⟩).joint2Rot.z = π - Real.arccos (-(19767 / 20000)) :=
    kneeBend_counterexample_input
  rw [hkb] at hk
  obtain ⟨hlow, hhigh⟩ := arccos_counterexample_bounds
  have h1 : 0 < π - Real.arccos (-(19767 / 20000)) := by linarith
  have h2 : π - Real.arccos (-(19767 / 20000)) < π / 12 := by linarith
  rcases le_or_lt k 0 with hk0 | hk1
  · have hkr : (k : ℝ) ≤ 0 := by exact_mod_cast hk0
    nlinarith [Real.pi_pos]
  · have hkr : (1 : ℝ) ≤ (k : ℝ) := by exact_mod_cast hk1
    nlinarith [Real.pi_pos]

end DoubleDiamond
